import Mathlib

/-!
Verification of the cs-fantasy scoring engine, scoring schema validator,
bracket scoring configuration, module/stage lifecycle logic, population
retry ladder, score persistence, and leaderboard ranking, as a shallow
embedding of the Python sources in `fantasy/`.
-/

namespace CsFantasy

/-- Python-style JSON-ish runtime values as they flow through the scoring
engine: `None`, ints, strings, bools, lists, and dict/attribute-bearing
objects (both are navigated uniformly by `resolve_path`, so both are
modelled as `dict`). -/
inductive Value where
  | none
  | int (n : Int)
  | str (s : String)
  | bool (b : Bool)
  | list (xs : List Value)
  | dict (fields : List (String × Value))
  deriving Repr, Inhabited

mutual

/-- Structural equality on values, mirroring Python `==` on these shapes. -/
def Value.beq : Value → Value → Bool
  | .none, .none => true
  | .int a, .int b => a == b
  | .str a, .str b => a == b
  | .bool a, .bool b => a == b
  | .list xs, .list ys => Value.beqList xs ys
  | .dict fs, .dict gs => Value.beqFields fs gs
  | _, _ => false

def Value.beqList : List Value → List Value → Bool
  | [], [] => true
  | x :: xs, y :: ys => Value.beq x y && Value.beqList xs ys
  | _, _ => false

def Value.beqFields : List (String × Value) → List (String × Value) → Bool
  | [], [] => true
  | (k₁, v₁) :: fs, (k₂, v₂) :: gs =>
    k₁ == k₂ && Value.beq v₁ v₂ && Value.beqFields fs gs
  | _, _ => false

end

instance : BEq Value := ⟨Value.beq⟩

mutual

theorem Value.beq_iff : ∀ a b : Value, Value.beq a b = true ↔ a = b
  | .none, .none => by simp [Value.beq]
  | .int a, .int b => by simp [Value.beq]
  | .str a, .str b => by simp [Value.beq]
  | .bool a, .bool b => by simp [Value.beq]
  | .list xs, .list ys => by
    simp only [Value.beq, Value.list.injEq]
    exact Value.beqList_iff xs ys
  | .dict fs, .dict gs => by
    simp only [Value.beq, Value.dict.injEq]
    exact Value.beqFields_iff fs gs
  | .none, .int _ | .none, .str _ | .none, .bool _ | .none, .list _
  | .none, .dict _ | .int _, .none | .int _, .str _ | .int _, .bool _
  | .int _, .list _ | .int _, .dict _ | .str _, .none | .str _, .int _
  | .str _, .bool _ | .str _, .list _ | .str _, .dict _ | .bool _, .none
  | .bool _, .int _ | .bool _, .str _ | .bool _, .list _ | .bool _, .dict _
  | .list _, .none | .list _, .int _ | .list _, .str _ | .list _, .bool _
  | .list _, .dict _ | .dict _, .none | .dict _, .int _ | .dict _, .str _
  | .dict _, .bool _ | .dict _, .list _ => by simp [Value.beq]

theorem Value.beqList_iff : ∀ xs ys : List Value, Value.beqList xs ys = true ↔ xs = ys
  | [], [] => by simp [Value.beqList]
  | x :: xs, y :: ys => by
    simp only [Value.beqList, Bool.and_eq_true, List.cons.injEq]
    exact and_congr (Value.beq_iff x y) (Value.beqList_iff xs ys)
  | [], _ :: _ => by simp [Value.beqList]
  | _ :: _, [] => by simp [Value.beqList]

theorem Value.beqFields_iff :
    ∀ fs gs : List (String × Value), Value.beqFields fs gs = true ↔ fs = gs
  | [], [] => by simp [Value.beqFields]
  | (k₁, v₁) :: fs, (k₂, v₂) :: gs => by
    simp only [Value.beqFields, Bool.and_eq_true, List.cons.injEq, Prod.mk.injEq,
      beq_iff_eq, and_assoc]
    exact and_congr_right fun _ =>
      and_congr (Value.beq_iff v₁ v₂) (Value.beqFields_iff fs gs)
  | [], _ :: _ => by simp [Value.beqFields]
  | _ :: _, [] => by simp [Value.beqFields]

end

instance : DecidableEq Value := fun a b => decidable_of_iff _ (Value.beq_iff a b)

instance : LawfulBEq Value where
  eq_of_beq h := (Value.beq_iff _ _).1 h
  rfl := (Value.beq_iff _ _).2 rfl

/-- One step of `resolve_path`'s reduce: `acc.get(key)` for dicts (a missing
dict key yields Python `None`), `getattr(acc, key)` otherwise, where the
`AttributeError` of a non-object is caught by `resolve_path` and becomes
`None`.  Attribute-bearing objects are modelled as `dict`. -/
def Value.getKey : Value → String → Value
  | .dict fields, key =>
    match fields.lookup key with
    | some v => v
    | Option.none => .none
  | _, _ => .none

/-- `resolve_path` on an already-split path: the `functools.reduce` over the
path segments, with the `AttributeError`/`KeyError` handler folded in as the
`.none` cases of `Value.getKey`. -/
def resolvePathList (obj : Value) (segments : List String) : Value :=
  segments.foldl Value.getKey obj

/-- Splitting on the dot character, accumulating the current segment. -/
def splitCharsOnDot (cs : List Char) (cur : List Char) : List String :=
  match cs with
  | [] => [String.mk cur.reverse]
  | c :: rest =>
    if c = '.' then String.mk cur.reverse :: splitCharsOnDot rest []
    else splitCharsOnDot rest (c :: cur)

/-- Python's `path.split(".")` (single-character separator): `""` gives
`[""]`, adjacent dots give empty segments. -/
def splitOnDot (s : String) : List String := splitCharsOnDot s.data []

/-- `resolve_path(obj, path)`: resolves a dot-separated path on an object,
supporting both attribute and dict key access; returns `None` instead of
raising when a segment is missing. -/
def resolve_path (obj : Value) (path : String) : Value :=
  resolvePathList obj (splitOnDot path)

/-- `resolve_path(obj, path)` where the path itself may be Python `None`
(as produced by `scoring.get("source_value")`): `None.split` raises an
`AttributeError`, caught by `resolve_path`'s handler, giving `None`. -/
def resolvePathOpt (obj : Value) (path : Option String) : Value :=
  match path with
  | some p => resolve_path obj p
  | Option.none => .none

/-- Python truthiness of an optional string (`if key:`): `None` and the empty
string are falsy. -/
def strTruthy : Option String → Bool
  | some s => !s.isEmpty
  | Option.none => false

/-- A rule's `condition` block.  In the source a condition is a dict tagged by
its `"operator"` string; each constructor carries that operator's fields.
`unknownOp` stands for any operator string that is not a key of the engine's
`CONDITION_OPERATORS` dispatch table. -/
inductive Condition where
  | eq (source target : String)
  | always_true
  | in_list (source target_list : String) (list_item_key : Option String)
  | in_list_within_top_x (source target_list : String)
      (list_item_key position_key : Option String) (top_x : Option Int)
  | list_intersects (source_list target_list : String)
  | and (conditions : List Condition)
  | set_equal (source_list target_list : List String)
  | list_contains_literal (source_value : Value) (target_list : String)
  | unknownOp (op : String)

/-- The evaluation context `{"prediction": prediction, "result": result}`. -/
def mkContext (prediction result : Value) : Value :=
  Value.dict [("prediction", prediction), ("result", result)]

/-- `_eval_condition_eq`: both paths resolved against the context; true iff
the source value is not `None` and equals the target value. -/
def evalConditionEq (source target : String) (p r : Value) : Bool :=
  let context := mkContext p r
  let source_val := resolve_path context source
  let target_val := resolve_path context target
  source_val != Value.none && source_val == target_val

/-- `_eval_condition_in_list`: false if the source value is `None` or the
target does not resolve to a list; with a truthy `list_item_key`, any list
item whose key resolves to the source value matches, otherwise plain
membership. -/
def evalConditionInList (source target_list : String)
    (list_item_key : Option String) (p r : Value) : Bool :=
  let context := mkContext p r
  let source_val := resolve_path context source
  if source_val == Value.none then false
  else
    match resolve_path context target_list with
    | .list xs =>
      match list_item_key with
      | some key =>
        if key.isEmpty then xs.contains source_val
        else xs.any (fun item => resolve_path item key == source_val)
      | Option.none => xs.contains source_val
    | _ => false

/-- Loop body of `_eval_condition_in_list_within_top_x`: the first item whose
`list_item_key` equals the source value decides the outcome — true only if
its `position_key` resolves to an int `≤ top_x`. -/
def inListTopXFind (xs : List Value) (key pkey : String) (source_val : Value)
    (tx : Int) : Bool :=
  match xs with
  | [] => false
  | item :: rest =>
    if resolve_path item key == source_val then
      match resolve_path item pkey with
      | .int pos => decide (pos ≤ tx)
      | _ => false
    else inListTopXFind rest key pkey source_val tx

/-- `_eval_condition_in_list_within_top_x`: false when the source value is
`None`, the target is not a list, or `list_item_key`/`position_key`/`top_x`
are missing (Python truthiness for the two keys, `is not None` for `top_x`). -/
def evalConditionInListTopX (source target_list : String)
    (list_item_key position_key : Option String) (top_x : Option Int)
    (p r : Value) : Bool :=
  let context := mkContext p r
  let source_val := resolve_path context source
  if source_val == Value.none then false
  else
    match resolve_path context target_list, list_item_key, position_key, top_x with
    | .list xs, some key, some pkey, some tx =>
      if key.isEmpty || pkey.isEmpty then false
      else inListTopXFind xs key pkey source_val tx
    | _, _, _, _ => false

/-- `_eval_condition_list_intersects`: both paths must resolve to lists; true
iff their element sets intersect.  (The Django-manager `.all()` unwrapping has
no counterpart for plain values.) -/
def evalConditionListIntersects (source_list target_list : String)
    (p r : Value) : Bool :=
  let context := mkContext p r
  match resolve_path context source_list, resolve_path context target_list with
  | .list xs, .list ys => xs.any (fun x => ys.contains x)
  | _, _ => false

/-- Modelled from the spec: the implementation of the `set_equal` condition
operator is not present in `fantasy/utils/scoring_engine.py` (only its
declaration in `ScoringConfigValidator.CONDITION_OPERATORS`, its use in the
default bracket scoring config, and its tests are in the tree).  Per the
spec it "compares two path lists as multisets with `None` entries dropped
before comparison; equal-size multisets of equal members (any order,
duplicates collapse) match" — i.e. set equality of the resolved values after
dropping `None`. -/
def evalConditionSetEqual (source_list target_list : List String)
    (p r : Value) : Bool :=
  let context := mkContext p r
  let xs := (source_list.map (resolve_path context)).filter (· != Value.none)
  let ys := (target_list.map (resolve_path context)).filter (· != Value.none)
  xs.all (fun x => ys.contains x) && ys.all (fun y => xs.contains y)

/-- Modelled from the spec: the implementation of the `list_contains_literal`
condition operator is not present in `fantasy/utils/scoring_engine.py` (only
its declaration in the schema validator, its use in the default bracket
scoring config, and its tests are in the tree).  Per the spec it "matches a
literal scalar against elements of a resolved list; a non-list target or
`None` on either side is a definitional non-match". -/
def evalConditionListContainsLiteral (source_value : Value)
    (target_list : String) (p r : Value) : Bool :=
  let context := mkContext p r
  match resolve_path context target_list with
  | .list xs => source_value != Value.none && xs.contains source_value
  | _ => false

mutual

/-- `eval_condition`: dispatch on the condition's operator via
`CONDITION_OPERATORS`; an operator not in the table yields `False`.
`_eval_condition_and` returns `False` on an empty (or missing) `conditions`
list and otherwise requires every sub-condition to hold. -/
def eval_condition : Condition → Value → Value → Bool
  | .eq source target, p, r => evalConditionEq source target p r
  | .always_true, _, _ => true
  | .in_list source target_list key, p, r =>
    evalConditionInList source target_list key p r
  | .in_list_within_top_x source target_list key pkey tx, p, r =>
    evalConditionInListTopX source target_list key pkey tx p r
  | .list_intersects source_list target_list, p, r =>
    evalConditionListIntersects source_list target_list p r
  | .and conditions, p, r =>
    if conditions.isEmpty then false else evalConditionAll conditions p r
  | .set_equal source_list target_list, p, r =>
    evalConditionSetEqual source_list target_list p r
  | .list_contains_literal source_value target_list, p, r =>
    evalConditionListContainsLiteral source_value target_list p r
  | .unknownOp _, _, _ => false

/-- `all(eval_condition(cond, prediction, result) for cond in conditions)`. -/
def evalConditionAll : List Condition → Value → Value → Bool
  | [], _, _ => true
  | c :: cs, p, r => eval_condition c p r && evalConditionAll cs p r

end

/-- A rule's `scoring` block, tagged by its `"operator"` string; `unknownOp`
stands for operators missing from `SCORING_OPERATORS`. -/
inductive Scoring where
  | fixed (value : Option Int)
  | map_points (source_value target_list list_item_key : Option String)
      (scores : List Int)
  | scaled_difference (source1 source2 : String) (unit points_per_unit : Option Int)
  | unknownOp (op : String)

/-- Loop body of `_eval_scoring_map_points`: award the score at the index of
the first matching item, or 0 when the index is past the end of `scores`. -/
def mapPointsFind (xs : List Value) (key : String) (source_value : Value)
    (scores : List Int) (index : Nat) : Int :=
  match xs with
  | [] => 0
  | item :: rest =>
    if resolve_path item key == source_value then scores.getD index 0
    else mapPointsFind rest key source_value scores (index + 1)

/-- `eval_scoring`: dispatch on the scoring operator; unknown operators give
0.  `fixed` returns its `value` (default 0); `map_points` awards by list
index; `scaled_difference` returns `floor(|v1 − v2| / unit) × points_per_unit`
(0 when a field is missing, `unit == 0`, or a value is not numeric). -/
def eval_scoring : Scoring → Value → Value → Int
  | .fixed value, _, _ => value.getD 0
  | .map_points source_value target_list list_item_key scores, p, r =>
    let context := mkContext p r
    let sv := resolvePathOpt context source_value
    let tl := resolvePathOpt context target_list
    if sv == Value.none then 0
    else
      match tl, list_item_key with
      | .list xs, some key =>
        if key.isEmpty then 0 else mapPointsFind xs key sv scores 0
      | _, _ => 0
  | .scaled_difference source1 source2 unit points_per_unit, p, r =>
    let context := mkContext p r
    match resolve_path context source1, resolve_path context source2,
        unit, points_per_unit with
    | .int v1, .int v2, some u, some ppu =>
      if u == 0 then 0 else Int.fdiv |v1 - v2| u * ppu
    | _, _, _, _ => 0
  | .unknownOp _, _, _ => 0

/-- `ScoreBreakdownItem`: a single scoring event. -/
structure ScoreBreakdownItem where
  prediction_pk : Value
  rule_id : String
  points : Int
  description : String
  deriving Repr, DecidableEq

/-- `EvaluationResult`: structured result of a rule evaluation. -/
structure EvaluationResult where
  total_score : Int
  breakdown : List ScoreBreakdownItem
  deriving Repr, DecidableEq

/-- A scoring rule.  In the source a rule is a dict; `id`, `description` and
`condition` may be absent (`rule.get(...)` / `"condition" not in rule`), and
`exclusive` defaults to `False`. -/
structure Rule where
  id : Option String := Option.none
  description : Option String := Option.none
  condition : Option Condition := Option.none
  scoring : Scoring
  exclusive : Bool := false

/-- The breakdown item appended for a matching rule in `evaluate_rules`. -/
def mkBreakdownItem (prediction : Value) (rule : Rule) (score : Int) :
    ScoreBreakdownItem :=
  { prediction_pk := prediction.getKey "pk"
    rule_id := rule.id.getD "untitled_rule"
    points := score
    description := rule.description.getD "Points awarded for matching rule." }

/-- Whether a rule matches in `evaluate_rules`: a rule with no `"condition"`
key is unconditionally matched, otherwise its condition is evaluated. -/
def ruleMatches (rule : Rule) (p r : Value) : Bool :=
  match rule.condition with
  | Option.none => true
  | some c => eval_condition c p r

/-- The `for rule in rules` loop of `evaluate_rules`, accumulating the
`scores` and `breakdown_items` lists; a matching rule marked `exclusive`
breaks out of the loop. -/
def evaluateRulesGo (rules : List Rule) (p r : Value) :
    List Int × List ScoreBreakdownItem :=
  match rules with
  | [] => ([], [])
  | rule :: rest =>
    if ruleMatches rule p r then
      let score := eval_scoring rule.scoring p r
      let item := mkBreakdownItem p rule score
      if rule.exclusive then ([score], [item])
      else
        let tail := evaluateRulesGo rest p r
        (score :: tail.1, item :: tail.2)
    else evaluateRulesGo rest p r

/-- `evaluate_rules`: evaluates a set of rules against a prediction and a
result, aggregating the scores (`sum` handler) and the breakdown. -/
def evaluate_rules (rules : List Rule) (p r : Value)
    (handler : String := "sum") : EvaluationResult :=
  let acc := evaluateRulesGo rules p r
  { total_score := if handler == "sum" then acc.1.sum else 0
    breakdown := acc.2 }

/-- Spec-side characterisation of first-exclusive-match-wins: the prefix of
the rule list up to and including the first rule that both matches and is
marked exclusive (the whole list when no such rule exists).  Used to state
that `evaluate_rules` never looks past that rule. -/
def firstExclusivePrefix (rules : List Rule) (p r : Value) : List Rule :=
  match rules with
  | [] => []
  | rule :: rest =>
    if ruleMatches rule p r && rule.exclusive then [rule]
    else rule :: firstExclusivePrefix rest p r

/-- `get_default_bracket_scoring_config` from `fantasy/models/bracket.py`:
3 points for correct winner+score+teams (order-independent, exclusive),
2 points for correct winner+score or correct loser+score (exclusive),
1 point for correct winner or correct loser (exclusive), and a non-exclusive
1-point bonus for the winner of a match tagged `final`. -/
def get_default_bracket_scoring_config : List Rule :=
  [ { id := some "correct_final_winner_bonus"
      description := some "Bonus for correctly predicting the final winner."
      condition := some (.and
        [ .eq "prediction.predicted_winner_id" "result.winner_id"
        , .list_contains_literal (.str "final") "result.tags" ])
      scoring := .fixed (some 1)
      exclusive := false }
  , { id := some "correct_winner_score_and_teams"
      description := some "Correct winner, score, and teams (order-independent)."
      condition := some (.and
        [ .eq "prediction.predicted_winner_id" "result.winner_id"
        , .eq "prediction.predicted_team_a_score" "result.team_a_score"
        , .eq "prediction.predicted_team_b_score" "result.team_b_score"
        , .set_equal ["prediction.team_a_id", "prediction.team_b_id"]
            ["result.team_a_id", "result.team_b_id"] ])
      scoring := .fixed (some 3)
      exclusive := true }
  , { id := some "correct_winner_and_score"
      description := some "Correct winner and score, but wrong teams."
      condition := some (.and
        [ .eq "prediction.predicted_winner_id" "result.winner_id"
        , .eq "prediction.predicted_team_a_score" "result.team_a_score"
        , .eq "prediction.predicted_team_b_score" "result.team_b_score" ])
      scoring := .fixed (some 2)
      exclusive := true }
  , { id := some "correct_loser_and_score"
      description := some "Correct loser and score, but wrong teams."
      condition := some (.and
        [ .eq "prediction.predicted_loser_id" "result.loser_id"
        , .eq "prediction.predicted_team_a_score" "result.team_a_score"
        , .eq "prediction.predicted_team_b_score" "result.team_b_score" ])
      scoring := .fixed (some 2)
      exclusive := true }
  , { id := some "correct_winner"
      description := some "Correct winner, but wrong teams and/or score."
      condition := some (.eq "prediction.predicted_winner_id" "result.winner_id")
      scoring := .fixed (some 1)
      exclusive := true }
  , { id := some "correct_loser"
      description := some "Correct loser, but wrong teams and/or score."
      condition := some (.eq "prediction.predicted_loser_id" "result.loser_id")
      scoring := .fixed (some 1)
      exclusive := true } ]

/-- A `UserMatchPrediction` (augmented with `predicted_loser_id` as
`Bracket.calculate_scores` does) predicting winner = team 1 with scores 2:1
in the pairing (1, 2). -/
def bracketPerfectPrediction : Value :=
  .dict
    [ ("pk", .int 11)
    , ("team_a_id", .int 1)
    , ("team_b_id", .int 2)
    , ("predicted_team_a_score", .int 2)
    , ("predicted_team_b_score", .int 1)
    , ("predicted_winner_id", .int 1)
    , ("predicted_loser_id", .int 2) ]

/-- A `BracketMatch` result identical to `bracketPerfectPrediction`: winner =
team 1, scores 2:1, same team pairing, no tags. -/
def bracketPerfectResult : Value :=
  .dict
    [ ("team_a_id", .int 1)
    , ("team_b_id", .int 2)
    , ("team_a_score", .int 2)
    , ("team_b_score", .int 1)
    , ("winner_id", .int 1)
    , ("loser_id", .int 2)
    , ("tags", .list []) ]

/-! ### Schema validation (`fantasy/utils/scoring_schema.py`) -/

/-- `ValidationError`: a structural path into the document plus a message. -/
structure ValidationError where
  path : String
  message : String
  deriving Repr, DecidableEq

namespace ScoringConfigValidator

/-- `ScoringConfigValidator.CONDITION_OPERATORS`. -/
def CONDITION_OPERATORS : List String :=
  ["eq", "and", "in_list", "in_list_within_top_x",
   "list_intersects", "always_true", "list_contains_literal", "set_equal"]

/-- `ScoringConfigValidator.SCORING_OPERATORS`. -/
def SCORING_OPERATORS : List String := ["fixed", "map_points", "scaled_difference"]

/-- `ScoringConfigValidator.CONDITION_REQUIRED_FIELDS`. -/
def CONDITION_REQUIRED_FIELDS : List (String × List String) :=
  [ ("eq", ["source", "target"])
  , ("and", ["conditions"])
  , ("in_list", ["source", "target_list", "list_item_key"])
  , ("in_list_within_top_x",
      ["source", "target_list", "list_item_key", "position_key", "top_x"])
  , ("list_intersects", ["source_list", "target_list"])
  , ("always_true", [])
  , ("list_contains_literal", ["source_value", "target_list"])
  , ("set_equal", ["source_list", "target_list"]) ]

/-- `ScoringConfigValidator.SCORING_REQUIRED_FIELDS`. -/
def SCORING_REQUIRED_FIELDS : List (String × List String) :=
  [ ("fixed", ["value"])
  , ("map_points", ["source_value", "target_list", "list_item_key", "scores"])
  , ("scaled_difference", ["source1", "source2", "unit", "points_per_unit"]) ]

end ScoringConfigValidator

theorem sizeOf_lookup_lt {fields : List (String × Value)} {k : String}
    {v : Value} (h : fields.lookup k = some v) : sizeOf v < sizeOf fields := by
  induction fields with
  | nil => simp [List.lookup] at h
  | cons hd tl ih =>
    obtain ⟨k', v'⟩ := hd
    rw [List.lookup] at h
    split at h
    · cases h
      simp only [List.cons.sizeOf_spec, Prod.mk.sizeOf_spec]
      omega
    · have := ih h
      simp only [List.cons.sizeOf_spec, Prod.mk.sizeOf_spec]
      omega

/-- The errors appended for the operator-specific required fields of an
operator (`for field in required: if field not in condition/scoring: ...`). -/
def requiredFieldErrors (fields : List (String × Value)) (required : List String)
    (op path : String) : List ValidationError :=
  required.filterMap fun field =>
    if (fields.lookup field).isSome then Option.none
    else some ⟨s!"{path}.{field}", s!"Operator {op} requires field {field}"⟩

mutual

/-- `ScoringConfigValidator._validate_condition`: non-dict and missing/unknown
operator each yield a single error and stop; otherwise every missing
operator-specific required field is reported, and for `and` the nested
conditions are validated recursively. -/
def validateCondition (cond : Value) (path : String) : List ValidationError :=
  match cond with
  | .dict fields =>
    match fields.lookup "operator" with
    | Option.none => [⟨s!"{path}.operator", "Condition must have an operator"⟩]
    | some opv =>
      match opv with
      | .str op =>
        if ScoringConfigValidator.CONDITION_OPERATORS.contains op then
          let fieldErrs := requiredFieldErrors fields
            ((ScoringConfigValidator.CONDITION_REQUIRED_FIELDS.lookup op).getD [])
            op path
          let nestedErrs :=
            if op == "and" then
              match h : fields.lookup "conditions" with
              | some (.list cs) => validateConditionList cs path 0
              | some _ => [⟨s!"{path}.conditions", "conditions must be an array"⟩]
              | Option.none => []
            else []
          fieldErrs ++ nestedErrs
        else [⟨s!"{path}.operator", s!"Unknown operator {op}"⟩]
      | _ => [⟨s!"{path}.operator", "Unknown operator"⟩]
  | _ => [⟨path, "Condition must be a dictionary"⟩]
termination_by sizeOf cond
decreasing_by
  simp only [Value.dict.sizeOf_spec]
  have h1 := sizeOf_lookup_lt h
  simp only [Value.list.sizeOf_spec] at h1
  omega

/-- The recursion over the elements of an `and` operator's `conditions`
array, with `path.conditions[i]` paths. -/
def validateConditionList (cs : List Value) (path : String) (i : Nat) :
    List ValidationError :=
  match cs with
  | [] => []
  | c :: rest =>
    validateCondition c s!"{path}.conditions[{i}]" ++
      validateConditionList rest path (i + 1)
termination_by sizeOf cs
decreasing_by
  · simp only [List.cons.sizeOf_spec]; omega
  · simp only [List.cons.sizeOf_spec]; omega

end

/-- `ScoringConfigValidator._validate_scoring`. -/
def validateScoring (scoring : Value) (path : String) : List ValidationError :=
  match scoring with
  | .dict fields =>
    match fields.lookup "operator" with
    | Option.none => [⟨s!"{path}.operator", "Scoring must have an operator"⟩]
    | some opv =>
      match opv with
      | .str op =>
        if ScoringConfigValidator.SCORING_OPERATORS.contains op then
          requiredFieldErrors fields
            ((ScoringConfigValidator.SCORING_REQUIRED_FIELDS.lookup op).getD [])
            op path
        else [⟨s!"{path}.operator", s!"Unknown operator {op}"⟩]
      | _ => [⟨s!"{path}.operator", "Unknown operator"⟩]
  | _ => [⟨path, "Scoring must be a dictionary"⟩]

/-- `ScoringConfigValidator._validate_rule`: a non-dict rule is one error;
otherwise a missing `id`, a missing (else recursively validated) `condition`,
a missing (else recursively validated) `scoring`, and a non-boolean
`exclusive` are each reported, in that order. -/
def validateRule (rule : Value) (path : String) : List ValidationError :=
  match rule with
  | .dict fields =>
    let idErrs :=
      if (fields.lookup "id").isSome then []
      else [⟨s!"{path}.id", "Rule must have an id"⟩]
    let condErrs :=
      match fields.lookup "condition" with
      | Option.none => [⟨s!"{path}.condition", "Rule must have a condition"⟩]
      | some c => validateCondition c s!"{path}.condition"
    let scorErrs :=
      match fields.lookup "scoring" with
      | Option.none => [⟨s!"{path}.scoring", "Rule must have a scoring"⟩]
      | some sc => validateScoring sc s!"{path}.scoring"
    let exclErrs :=
      match fields.lookup "exclusive" with
      | some (.bool _) => []
      | some _ => [⟨s!"{path}.exclusive", "exclusive must be boolean"⟩]
      | Option.none => []
    idErrs ++ condErrs ++ scorErrs ++ exclErrs
  | _ => [⟨path, "Rule must be a dictionary"⟩]

/-- `for i, rule in enumerate(rules): self._validate_rule(rule, f"rules[i]")`. -/
def validateRulesList (rules : List Value) (i : Nat) : List ValidationError :=
  match rules with
  | [] => []
  | r :: rest => validateRule r s!"rules[{i}]" ++ validateRulesList rest (i + 1)

/-- `validate_scoring_config` / `ScoringConfigValidator.validate`: returns
`(is_valid, errors)`; a non-dict config, a missing `rules` key, or a non-list
`rules` value each short-circuit with a single error, otherwise every rule is
validated and all errors are accumulated. -/
def validate_scoring_config (config : Value) : Bool × List ValidationError :=
  match config with
  | .dict fields =>
    match fields.lookup "rules" with
    | Option.none => (false, [⟨"", "Config must have rules array"⟩])
    | some (.list rules) =>
      let errors := validateRulesList rules 0
      (errors.isEmpty, errors)
    | some _ => (false, [⟨"rules", "Rules must be an array"⟩])
  | _ => (false, [⟨"", "Config must be a dictionary"⟩])

/-! ### Keyed upserts (Django `update_or_create` / in-place row updates) -/

/-- `update_or_create`: replace the (first) row with the given key, or append
a new row when the key is absent. -/
def upsert {K V : Type} [DecidableEq K] : List (K × V) → K → V → List (K × V)
  | [], k, v => [(k, v)]
  | (k', v') :: rest, k, v =>
    if k' = k then (k, v) :: rest else (k', v') :: upsert rest k v

/-! ### Score persistence (`BaseModule.update_scores`, `UserModuleScore`) -/

/-- The natural key of a `UserModuleScore` row: `(user, module, tournament)`. -/
structure ScoreKey where
  user : Nat
  module : Nat
  tournament : Nat
  deriving Repr, DecidableEq

/-- The persisted columns set by `update_scores`'s `update_or_create`
defaults: `points` and `score_breakdown`. -/
structure ScorePayload where
  points : Int
  score_breakdown : List ScoreBreakdownItem
  deriving Repr, DecidableEq

/-- One user's entry in the `calculate_scores` result map:
`{"total_score": ..., "breakdown": [...]}`. -/
structure UserScoreData where
  total_score : Int
  breakdown : List ScoreBreakdownItem
  deriving Repr, DecidableEq

/-- `BaseModule.update_scores`: runs `calculate_scores` (whose result map —
a pure function of the module's stored predictions and results — is passed
here as `scores_data`), then for every `(user, data)` pair upserts a
`UserModuleScore` row keyed by `(user, module, tournament)` with
`points = data["total_score"]` and `score_breakdown = data["breakdown"]`,
counting one update per user; returns the updated table and the count. -/
def update_scores (moduleId tournamentId : Nat) :
    List (ScoreKey × ScorePayload) → List (Nat × UserScoreData) →
    List (ScoreKey × ScorePayload) × Nat
  | db, [] => (db, 0)
  | db, (user, data) :: rest =>
    let res := update_scores moduleId tournamentId
      (upsert db ⟨user, moduleId, tournamentId⟩ ⟨data.total_score, data.breakdown⟩)
      rest
    (res.1, res.2 + 1)

/-! ### Stage advancement (`BaseModule.save`, `_check_stage_advancement`) -/

/-- The `Stage` columns involved in advancement. -/
structure StageState where
  is_active : Bool
  is_completed : Bool
  next_stage : Option Nat
  deriving Repr, DecidableEq

/-- The `BaseModule` columns involved in advancement. -/
structure ModuleState where
  stage : Nat
  blocking_advancement : Bool
  is_completed : Bool
  deriving Repr, DecidableEq

/-- The persistent state `_check_stage_advancement` reads and writes: the
stage and module tables plus the ordered log of
`async_task("fantasy.tasks.populate_stage_modules", stage_id, ...)`
dispatches. -/
structure World where
  stages : List (Nat × StageState)
  modules : List (Nat × ModuleState)
  population_tasks : List Nat
  deriving Repr, DecidableEq

/-- `BaseModule._check_stage_advancement`: fetch all modules of this module's
stage flagged `blocking_advancement=True`; if any is not completed, do
nothing.  Otherwise mark the stage completed (no-op when already true); if it
has a `next_stage`, activate it (no-op when already active) and dispatch an
async population task for it. -/
def checkStageAdvancement (w : World) (mid : Nat) : World :=
  match w.modules.lookup mid with
  | Option.none => w
  | some m =>
    match w.stages.lookup m.stage with
    | Option.none => w
    | some st =>
      let blocking := w.modules.filter
        (fun mm => mm.2.stage == m.stage && mm.2.blocking_advancement)
      let all_completed := blocking.all (fun mm => mm.2.is_completed)
      if !all_completed then w
      else
        let st1 := if st.is_completed then st else { st with is_completed := true }
        let w1 := { w with stages := upsert w.stages m.stage st1 }
        match st.next_stage with
        | Option.none => w1
        | some ns =>
          match w1.stages.lookup ns with
          | Option.none => w1
          | some nsSt =>
            let nsSt1 := if nsSt.is_active then nsSt else { nsSt with is_active := true }
            let w2 := { w1 with stages := upsert w1.stages ns nsSt1 }
            { w2 with population_tasks := w2.population_tasks ++ [ns] }

/-- The completion-relevant part of `BaseModule.save` when a module is saved
with `is_completed=True`: the row is written, and `_check_stage_advancement`
runs exactly when the stored row transitioned from not-completed to
completed (`if not old.is_completed and self.is_completed`). -/
def completeModule (w : World) (mid : Nat) : World :=
  match w.modules.lookup mid with
  | Option.none => w
  | some old =>
    let w1 := { w with modules := upsert w.modules mid { old with is_completed := true } }
    if !old.is_completed then checkStageAdvancement w1 mid else w1

/-- A two-stage world: stage 1 (active, with `next_stage = 2`) holds the two
blocking, incomplete modules 10 and 11; stage 2 is inactive. -/
def demoStageWorld : World :=
  { stages := [(1, ⟨true, false, some 2⟩), (2, ⟨false, false, Option.none⟩)]
    modules := [(10, ⟨1, true, false⟩), (11, ⟨1, true, false⟩)]
    population_tasks := [] }

/-! ### Stage population retries (`fantasy/tasks/module_finalization.py`) -/

/-- `POPULATION_RETRY_DELAYS`: retry delays in minutes (1h, 2h, 4h, 6h, 12h,
24h). -/
def POPULATION_RETRY_DELAYS : List Nat := [60, 120, 240, 360, 720, 1440]

/-- The names of the modules whose population handler reported
`{"status": "incomplete"}`, in module order. -/
def incompleteModulesOf (module_results : List (String × String)) : List String :=
  (module_results.filter (fun mr => mr.2 == "incomplete")).map (·.1)

/-- The count of modules whose population handler reported success. -/
def populatedCountOf (module_results : List (String × String)) : Nat :=
  (module_results.filter (fun mr => mr.2 == "success")).length

/-- The value returned by `populate_stage_modules`. -/
inductive PopulateResult where
  | retry_scheduled (stage_id : Nat) (incomplete_modules : List String)
      (next_attempt : Nat) (delay_minutes : Nat)
  | error_max_retries (incomplete_modules : List String)
  | success (stage_id : Nat) (modules_populated : Nat)
  deriving Repr, DecidableEq

/-- The Django-Q `Schedule` row created by `_schedule_population_retry`:
task args `(stage_id, attempt)`, to run `delay_minutes` from now. -/
structure ScheduledRetry where
  stage_id : Nat
  attempt : Nat
  delay_minutes : Nat
  deriving Repr, DecidableEq

/-- The retry-control core of `populate_stage_modules` (the fetch/parse
collaborators and per-module population handlers are external; their
outcomes enter as `module_results`, a `(module name, handler status)` list).
If any handler reported incomplete data: while `attempt` is below the ladder
length, schedule a retry at `POPULATION_RETRY_DELAYS[attempt]` minutes with
the attempt counter incremented; otherwise return the terminal
`max_retries_exceeded` error with no schedule created. -/
def populate_stage_modules (stage_id attempt : Nat)
    (module_results : List (String × String)) :
    PopulateResult × Option ScheduledRetry :=
  let populated_count := populatedCountOf module_results
  let incomplete_modules := incompleteModulesOf module_results
  if incomplete_modules.isEmpty then
    (.success stage_id populated_count, Option.none)
  else if h : attempt < POPULATION_RETRY_DELAYS.length then
    let delay := POPULATION_RETRY_DELAYS.get ⟨attempt, h⟩
    (.retry_scheduled stage_id incomplete_modules (attempt + 2) delay,
      some ⟨stage_id, attempt + 1, delay⟩)
  else
    (.error_max_retries incomplete_modules, Option.none)

/-! ### Leaderboard ranking (`hltv_parser.parse_leaderboard`) -/

/-- A leaderboard row before position assignment: the
`{"hltv_id", "name", "value"}` dicts collected from the HTML.  Values are
modelled as rationals: the Python code only ever compares them. -/
structure LeaderboardRow where
  hltv_id : Int
  name : String
  value : ℚ
  deriving Repr, DecidableEq

/-- `LeaderboardEntry{hltv_id, name, value, position}`. -/
structure LeaderboardEntry where
  hltv_id : Int
  name : String
  value : ℚ
  position : Nat
  deriving Repr, DecidableEq

/-- One insertion step of a stable descending sort by `value`: a row moves
ahead only of rows with strictly smaller values, so equal-valued rows keep
their original relative order. -/
def insertByValueDesc (x : LeaderboardRow) :
    List LeaderboardRow → List LeaderboardRow
  | [] => [x]
  | y :: ys =>
    if y.value < x.value then x :: y :: ys else y :: insertByValueDesc x ys

/-- `entries.sort(key=lambda x: x["value"], reverse=True)`: Python's sort is
stable, and every stable descending sort by the same key computes the same
list, so it is modelled by a stable insertion sort. -/
def sortByValueDesc (rows : List LeaderboardRow) : List LeaderboardRow :=
  rows.foldl (fun acc x => insertByValueDesc x acc) []

/-- The position-assignment loop of `parse_leaderboard`: `current_rank`
starts at 1 and increments exactly when the current value is strictly below
the previous one, so tied values share a position and the next distinct
value resumes at the previous rank plus one. -/
def assignPositionsGo : List LeaderboardRow → Nat → Option ℚ → List LeaderboardEntry
  | [], _, _ => []
  | e :: rest, current_rank, previous_value =>
    let rank :=
      match previous_value with
      | some pv => if e.value < pv then current_rank + 1 else current_rank
      | Option.none => current_rank
    ⟨e.hltv_id, e.name, e.value, rank⟩ :: assignPositionsGo rest rank (some e.value)

/-- `parse_leaderboard` from the point where the entry dicts have been
scraped out of the HTML (the scraping itself is the external parser
collaborator): sort by value descending (stable) and assign shared,
dense positions. -/
def parse_leaderboard (rows : List LeaderboardRow) : List LeaderboardEntry :=
  assignPositionsGo (sortByValueDesc rows) 1 Option.none

/-- Three scraped leaderboard rows with values 1.50, 1.50, 1.40. -/
def demoLeaderboardRows : List LeaderboardRow :=
  [⟨101, "alpha", 3 / 2⟩, ⟨102, "bravo", 3 / 2⟩, ⟨103, "charlie", 7 / 5⟩]

/-- A scoring-config document with one violation per rule: rule 0 lacks
`id`, rule 1 uses an unrecognized condition operator, rule 2's `fixed`
scoring lacks its required `value`, and rule 3 is an empty dict. -/
def badScoringConfig : Value :=
  .dict [("rules", .list
    [ .dict [("condition", .dict [("operator", .str "always_true")]),
             ("scoring", .dict [("operator", .str "fixed"), ("value", .int 1)])]
    , .dict [("id", .str "r1"),
             ("condition", .dict [("operator", .str "fancy_op")]),
             ("scoring", .dict [("operator", .str "fixed"), ("value", .int 1)])]
    , .dict [("id", .str "r2"),
             ("condition", .dict [("operator", .str "always_true")]),
             ("scoring", .dict [("operator", .str "fixed")])]
    , .dict [] ])]

/-! ## Theorems -/

theorem evaluateRulesGo_snd (rules : List Rule) (p r : Value) :
    (evaluateRulesGo rules p r).2 =
      ((firstExclusivePrefix rules p r).filter
          (fun rule => ruleMatches rule p r)).map
        (fun rule => mkBreakdownItem p rule (eval_scoring rule.scoring p r)) := by
  induction rules with
  | nil => rfl
  | cons rule rest ih =>
    by_cases hm : ruleMatches rule p r = true
    · by_cases he : rule.exclusive = true
      · simp [evaluateRulesGo, firstExclusivePrefix, hm, he]
      · simp [evaluateRulesGo, firstExclusivePrefix, hm, he, ih]
    · simp [evaluateRulesGo, firstExclusivePrefix, hm, ih]

theorem evaluateRulesGo_fst (rules : List Rule) (p r : Value) :
    (evaluateRulesGo rules p r).1 =
      (evaluateRulesGo rules p r).2.map ScoreBreakdownItem.points := by
  induction rules with
  | nil => rfl
  | cons rule rest ih =>
    by_cases hm : ruleMatches rule p r = true
    · by_cases he : rule.exclusive = true
      · simp [evaluateRulesGo, hm, he, mkBreakdownItem]
      · simp [evaluateRulesGo, hm, he, ih, mkBreakdownItem]
    · simp [evaluateRulesGo, hm, ih]

/-- C1: `evaluate_rules` processes the rules in list order and stops at the
first rule that both matches and is marked exclusive: its breakdown consists
exactly of the matching rules of the first-exclusive-match prefix, in order
(so no later rule contributes, and every non-exclusive matching rule before
that point contributes additively), and `total_score` is the sum of the
breakdown's points. -/
theorem evaluate_rules_first_exclusive_and_sum (rules : List Rule) (p r : Value) :
    (evaluate_rules rules p r).breakdown =
        ((firstExclusivePrefix rules p r).filter
            (fun rule => ruleMatches rule p r)).map
          (fun rule => mkBreakdownItem p rule (eval_scoring rule.scoring p r)) ∧
      (evaluate_rules rules p r).total_score =
        ((evaluate_rules rules p r).breakdown.map ScoreBreakdownItem.points).sum := by
  constructor
  · simpa [evaluate_rules] using evaluateRulesGo_snd rules p r
  · simp [evaluate_rules, evaluateRulesGo_fst rules p r]

/-- C10: in `evaluate_rules`, a rule whose dict has no `"condition"` key is
unconditionally matched: its scoring is evaluated, a breakdown item is
appended, its points enter the total, and when marked exclusive it halts
processing of the remaining rules — while `_validate_rule` reports such a
rule as malformed at `path.condition`. -/
theorem missing_condition_rule_always_matches (p r : Value) (rest : List Rule)
    (idv desc : Option String) (scor : Scoring) (excl : Bool)
    (fields : List (String × Value)) (path : String) :
    (evaluate_rules
        ({ id := idv, description := desc, condition := Option.none,
           scoring := scor, exclusive := excl } :: rest) p r =
      (if excl then
        { total_score := eval_scoring scor p r
          breakdown := [mkBreakdownItem p
            { id := idv, description := desc, condition := Option.none,
              scoring := scor, exclusive := excl } (eval_scoring scor p r)] }
      else
        { total_score := eval_scoring scor p r + (evaluate_rules rest p r).total_score
          breakdown := mkBreakdownItem p
              { id := idv, description := desc, condition := Option.none,
                scoring := scor, exclusive := excl } (eval_scoring scor p r) ::
            (evaluate_rules rest p r).breakdown })) ∧
      (fields.lookup "condition" = Option.none →
        ValidationError.mk s!"{path}.condition" "Rule must have a condition" ∈
          validateRule (.dict fields) path) := by
  constructor
  · by_cases he : excl = true
    · simp [evaluate_rules, evaluateRulesGo, ruleMatches, he]
    · simp [evaluate_rules, evaluateRulesGo, ruleMatches, he]
  · intro hcond
    simp [validateRule, hcond, List.mem_append]

theorem resolvePathList_none (segments : List String) :
    resolvePathList Value.none segments = Value.none := by
  induction segments with
  | nil => rfl
  | cons k rest ih => simpa [resolvePathList, Value.getKey] using ih

/-- C9: path resolution is total and treats a missing segment as the absent
sentinel `None` — for a dict-like object lacking the key, and for any
non-dict object (where Python attribute access would raise, caught by
`resolve_path`) — and the `eq` operator evaluates to false whenever its
source path resolves to absent, even if the target path is also absent. -/
theorem resolve_path_absent_never_matches :
    (∀ (fields : List (String × Value)) (k : String) (rest : List String),
        fields.lookup k = Option.none →
        resolvePathList (Value.dict fields) (k :: rest) = Value.none) ∧
      (∀ (obj : Value) (k : String) (rest : List String),
        (∀ fields, obj ≠ Value.dict fields) →
        resolvePathList obj (k :: rest) = Value.none) ∧
      (∀ (source target : String) (p r : Value),
        resolve_path (mkContext p r) source = Value.none →
        eval_condition (.eq source target) p r = false) := by
  refine ⟨?_, ?_, ?_⟩
  · intro fields k rest hmiss
    have hstep : (Value.dict fields).getKey k = Value.none := by
      simp [Value.getKey, hmiss]
    simpa [resolvePathList, hstep] using resolvePathList_none rest
  · intro obj k rest hnodict
    have hstep : obj.getKey k = Value.none := by
      cases obj with
      | dict fields => exact absurd rfl (hnodict fields)
      | none => rfl
      | int n => rfl
      | str s => rfl
      | bool b => rfl
      | list xs => rfl
    simpa [resolvePathList, hstep] using resolvePathList_none rest
  · intro source target p r habsent
    simp [eval_condition, evalConditionEq, habsent]

/-- C2: the `set_equal` operator compares the values resolved from its two
path lists as multisets after dropping `None` entries: `[a, b]` against
`[b, a]` matches, `[a, None]` against `[a, None]` matches, and `[a]` against
`[a, b]` (with `b` a present value distinct from `a`) does not. -/
theorem set_equal_drops_none_and_ignores_order (p r : Value)
    (s1 s2 t1 t2 : String) (a b : Value) :
    (resolve_path (mkContext p r) s1 = a → resolve_path (mkContext p r) s2 = b →
      resolve_path (mkContext p r) t1 = b → resolve_path (mkContext p r) t2 = a →
      eval_condition (.set_equal [s1, s2] [t1, t2]) p r = true) ∧
    (resolve_path (mkContext p r) s1 = a →
      resolve_path (mkContext p r) s2 = Value.none →
      resolve_path (mkContext p r) t1 = a →
      resolve_path (mkContext p r) t2 = Value.none →
      eval_condition (.set_equal [s1, s2] [t1, t2]) p r = true) ∧
    (resolve_path (mkContext p r) s1 = a → resolve_path (mkContext p r) t1 = a →
      resolve_path (mkContext p r) t2 = b → b ≠ Value.none → a ≠ b →
      eval_condition (.set_equal [s1] [t1, t2]) p r = false) := by
  refine ⟨?_, ?_, ?_⟩
  · intro h1 h2 h3 h4
    by_cases ha : a = Value.none
    all_goals by_cases hb : b = Value.none
    all_goals simp_all [eval_condition, evalConditionSetEqual, bne_iff_ne]
  · intro h1 h2 h3 h4
    by_cases ha : a = Value.none
    all_goals simp_all [eval_condition, evalConditionSetEqual, bne_iff_ne]
  · intro h1 h2 h3 hb hab
    by_cases ha : a = Value.none
    all_goals
      simp_all [eval_condition, evalConditionSetEqual, bne_iff_ne, Ne.symm hab]

/-- C3: under the default bracket scoring configuration, the perfect
prediction (winner = team 1, scores 2:1, identical pairing) scores exactly
the exclusive 3-point `correct_winner_score_and_teams` tier — a single
breakdown entry, not the 2-point or 1-point tiers — even though the
conditions of the 3-point, 2-point and 1-point winner tiers are all
individually true for that pair. -/
theorem upsert_lookup_self {K V : Type} [DecidableEq K]
    (l : List (K × V)) (k : K) (v : V) : (upsert l k v).lookup k = some v := by
  induction l with
  | nil => simp [upsert, List.lookup]
  | cons hd tl ih =>
    obtain ⟨k', v'⟩ := hd
    by_cases hk : k' = k
    · subst hk
      simp [upsert, List.lookup]
    · have hbeq : (k == k') = false := beq_eq_false_iff_ne.2 (Ne.symm hk)
      simp [upsert, hk, List.lookup, hbeq, ih]

theorem upsert_lookup_other {K V : Type} [DecidableEq K]
    (l : List (K × V)) (k k2 : K) (v : V) (hne : k2 ≠ k) :
    (upsert l k v).lookup k2 = l.lookup k2 := by
  have hbne : (k2 == k) = false := beq_eq_false_iff_ne.2 hne
  induction l with
  | nil => simp [upsert, List.lookup, hbne]
  | cons hd tl ih =>
    obtain ⟨k', v'⟩ := hd
    by_cases hk : k' = k
    · subst hk
      simp [upsert, List.lookup, hbne]
    · by_cases hk2 : k' = k2
      · subst hk2
        simp [upsert, hk, List.lookup]
      · have hbne2 : (k2 == k') = false := beq_eq_false_iff_ne.2 (Ne.symm hk2)
        simp [upsert, hk, List.lookup, hbne2, ih]

theorem upsert_same {K V : Type} [DecidableEq K]
    (l : List (K × V)) (k : K) (v : V) (h : l.lookup k = some v) :
    upsert l k v = l := by
  induction l with
  | nil => simp [List.lookup] at h
  | cons hd tl ih =>
    obtain ⟨k', v'⟩ := hd
    by_cases hk : k' = k
    · subst hk
      simp [List.lookup] at h
      simp [upsert, h]
    · have hbeq : (k == k') = false := beq_eq_false_iff_ne.2 (Ne.symm hk)
      simp only [List.lookup, hbeq] at h
      simp [upsert, hk, ih h]

theorem mem_upsert_of_ne {K V : Type} [DecidableEq K]
    {l : List (K × V)} {k k2 : K} {v v2 : V} (hmem : (k2, v2) ∈ l)
    (hne : k2 ≠ k) : (k2, v2) ∈ upsert l k v := by
  induction l with
  | nil => simp at hmem
  | cons hd tl ih =>
    obtain ⟨k', v'⟩ := hd
    rcases List.mem_cons.1 hmem with heq | htl
    · by_cases hk : k' = k
      · subst hk
        cases heq
        exact absurd rfl hne
      · simp [upsert, hk, heq]
    · by_cases hk : k' = k
      · simp [upsert, hk, List.mem_cons, htl]
      · simp [upsert, hk, List.mem_cons, ih htl]

theorem mem_upsert_nodup {K V : Type} [DecidableEq K]
    {l : List (K × V)} {k : K} {v : V} {x : K × V}
    (hnodup : (l.map Prod.fst).Nodup) (hmem : x ∈ upsert l k v) :
    x = (k, v) ∨ (x ∈ l ∧ x.1 ≠ k) := by
  induction l with
  | nil =>
    simp [upsert] at hmem
    exact Or.inl hmem
  | cons hd tl ih =>
    obtain ⟨k', v'⟩ := hd
    simp only [List.map_cons, List.nodup_cons] at hnodup
    by_cases hk : k' = k
    · subst hk
      simp only [upsert, if_pos rfl] at hmem
      rcases List.mem_cons.1 hmem with heq | htl
      · exact Or.inl heq
      · refine Or.inr ⟨List.mem_cons_of_mem _ htl, ?_⟩
        intro hx
        exact hnodup.1 (hx ▸ List.mem_map_of_mem Prod.fst htl)
    · simp only [upsert, if_neg hk] at hmem
      rcases List.mem_cons.1 hmem with heq | htl
      · exact Or.inr ⟨by simp [heq], by simpa [heq] using hk⟩
      · rcases ih hnodup.2 htl with h | ⟨hmem2, hne2⟩
        · exact Or.inl h
        · exact Or.inr ⟨List.mem_cons_of_mem _ hmem2, hne2⟩

theorem bracket_perfect_prediction_takes_top_tier :
    (evaluate_rules get_default_bracket_scoring_config
        bracketPerfectPrediction bracketPerfectResult).total_score = 3 ∧
      (evaluate_rules get_default_bracket_scoring_config
          bracketPerfectPrediction bracketPerfectResult).breakdown.map
        (fun item => item.rule_id) = ["correct_winner_score_and_teams"] ∧
      (∀ rule ∈ get_default_bracket_scoring_config,
        (rule.id = some "correct_winner_score_and_teams" ∨
            rule.id = some "correct_winner_and_score" ∨
            rule.id = some "correct_winner") →
        ruleMatches rule bracketPerfectPrediction bracketPerfectResult = true) := by
  refine ⟨by decide, by decide, by decide⟩

/-- C5: when stage population reports incomplete data at attempt `k`, a retry
is scheduled after exactly the `k`-th delay of the fixed ladder
`[60, 120, 240, 360, 720, 1440]` minutes with the attempt incremented to
`k + 1` (in particular attempt 0 reschedules at +60 minutes with attempt
becoming 1); at `attempt = 6` (the ladder length) with data still incomplete,
the call returns the terminal `max_retries_exceeded` failure and creates no
schedule. -/
theorem population_retry_ladder (sid attempt : Nat)
    (mrs : List (String × String)) :
    POPULATION_RETRY_DELAYS = [60, 120, 240, 360, 720, 1440] ∧
    (incompleteModulesOf mrs ≠ [] →
      ∀ h : attempt < POPULATION_RETRY_DELAYS.length,
        populate_stage_modules sid attempt mrs =
          (.retry_scheduled sid (incompleteModulesOf mrs) (attempt + 2)
              (POPULATION_RETRY_DELAYS.get ⟨attempt, h⟩),
            some ⟨sid, attempt + 1, POPULATION_RETRY_DELAYS.get ⟨attempt, h⟩⟩)) ∧
    (incompleteModulesOf mrs ≠ [] → attempt = 0 →
      populate_stage_modules sid attempt mrs =
        (.retry_scheduled sid (incompleteModulesOf mrs) 2 60,
          some ⟨sid, 1, 60⟩)) ∧
    (incompleteModulesOf mrs ≠ [] → attempt = POPULATION_RETRY_DELAYS.length →
      populate_stage_modules sid attempt mrs =
        (.error_max_retries (incompleteModulesOf mrs), Option.none)) := by
  refine ⟨rfl, ?_, ?_, ?_⟩
  · intro hne h
    have hempty : (incompleteModulesOf mrs).isEmpty = false := by
      simpa [List.isEmpty_iff] using hne
    simp [populate_stage_modules, hempty, h]
  · intro hne h0
    subst h0
    have hempty : (incompleteModulesOf mrs).isEmpty = false := by
      simpa [List.isEmpty_iff] using hne
    simp [populate_stage_modules, hempty, POPULATION_RETRY_DELAYS]
  · intro hne hmax
    subst hmax
    have hempty : (incompleteModulesOf mrs).isEmpty = false := by
      simpa [List.isEmpty_iff] using hne
    simp [populate_stage_modules, hempty]

theorem population_retry_ladder_witness :
    populate_stage_modules 7 0 [("swiss stage", "incomplete")] =
        (.retry_scheduled 7 ["swiss stage"] 2 60, some ⟨7, 1, 60⟩) ∧
      populate_stage_modules 7 6 [("swiss stage", "incomplete")] =
        (.error_max_retries ["swiss stage"], Option.none) := by
  constructor
  · have h := (population_retry_ladder 7 0 [("swiss stage", "incomplete")]).2.2.1
      (by decide) rfl
    simpa [incompleteModulesOf] using h
  · have h := (population_retry_ladder 7 6 [("swiss stage", "incomplete")]).2.2.2
      (by decide) (by decide)
    simpa [incompleteModulesOf] using h

theorem update_scores_snd (m t : Nat) (db : List (ScoreKey × ScorePayload))
    (sd : List (Nat × UserScoreData)) :
    (update_scores m t db sd).2 = sd.length := by
  induction sd generalizing db with
  | nil => rfl
  | cons hd rest ih =>
    obtain ⟨u, data⟩ := hd
    simp [update_scores, ih]

theorem update_scores_lookup_of_not_mem (m t : Nat)
    (db : List (ScoreKey × ScorePayload)) (sd : List (Nat × UserScoreData))
    (u : Nat) (hu : u ∉ sd.map Prod.fst) :
    (update_scores m t db sd).1.lookup ⟨u, m, t⟩ = db.lookup ⟨u, m, t⟩ := by
  induction sd generalizing db with
  | nil => rfl
  | cons hd rest ih =>
    obtain ⟨u0, d0⟩ := hd
    simp only [List.map_cons, List.mem_cons] at hu
    push_neg at hu
    rw [update_scores]
    rw [ih _ hu.2]
    exact upsert_lookup_other _ _ _ _ (by simp [ScoreKey.mk.injEq, hu.1])

theorem update_scores_lookup (m t : Nat) (db : List (ScoreKey × ScorePayload))
    (sd : List (Nat × UserScoreData)) (u : Nat) (data : UserScoreData)
    (hnodup : (sd.map Prod.fst).Nodup) (hmem : (u, data) ∈ sd) :
    (update_scores m t db sd).1.lookup ⟨u, m, t⟩ =
      some ⟨data.total_score, data.breakdown⟩ := by
  induction sd generalizing db with
  | nil => simp at hmem
  | cons hd rest ih =>
    obtain ⟨u0, d0⟩ := hd
    simp only [List.map_cons, List.nodup_cons] at hnodup
    rcases List.mem_cons.1 hmem with heq | htl
    · cases heq
      rw [update_scores]
      rw [update_scores_lookup_of_not_mem _ _ _ _ _ hnodup.1]
      exact upsert_lookup_self _ _ _
    · rw [update_scores]
      exact ih _ hnodup.2 htl

theorem update_scores_fixpoint (m t : Nat)
    (db : List (ScoreKey × ScorePayload)) (sd : List (Nat × UserScoreData))
    (hfix : ∀ u data, (u, data) ∈ sd →
      db.lookup ⟨u, m, t⟩ = some ⟨data.total_score, data.breakdown⟩) :
    (update_scores m t db sd).1 = db := by
  induction sd generalizing db with
  | nil => rfl
  | cons hd rest ih =>
    obtain ⟨u0, d0⟩ := hd
    rw [update_scores]
    have hsame := upsert_same db ⟨u0, m, t⟩ ⟨d0.total_score, d0.breakdown⟩
      (hfix u0 d0 (List.mem_cons_self _ _))
    rw [hsame]
    exact ih _ fun u data hm => hfix u data (List.mem_cons_of_mem _ hm)

/-- C6: `update_scores` upserts one `UserModuleScore` row per user, keyed by
`(user, module, tournament)`, with `points = total_score` and the breakdown,
and returns the count of users updated; running it a second time with the
same `calculate_scores` output (unchanged predictions and results) leaves the
stored rows — and the returned count — exactly as after the first run. -/
theorem update_scores_idempotent_per_user (m t : Nat)
    (db : List (ScoreKey × ScorePayload)) (sd : List (Nat × UserScoreData)) :
    (update_scores m t db sd).2 = sd.length ∧
      ((sd.map Prod.fst).Nodup →
        (∀ u data, (u, data) ∈ sd →
          (update_scores m t db sd).1.lookup ⟨u, m, t⟩ =
            some ⟨data.total_score, data.breakdown⟩) ∧
        update_scores m t (update_scores m t db sd).1 sd =
          update_scores m t db sd) := by
  refine ⟨update_scores_snd m t db sd, fun hnodup => ⟨?_, ?_⟩⟩
  · intro u data hmem
    exact update_scores_lookup m t db sd u data hnodup hmem
  · have hfst : (update_scores m t (update_scores m t db sd).1 sd).1 =
        (update_scores m t db sd).1 :=
      update_scores_fixpoint m t _ sd fun u data hmem =>
        update_scores_lookup m t db sd u data hnodup hmem
    have hsnd : (update_scores m t (update_scores m t db sd).1 sd).2 =
        (update_scores m t db sd).2 := by
      rw [update_scores_snd, update_scores_snd]
    exact Prod.ext hfst hsnd

theorem update_scores_idempotent_per_user_witness :
    (update_scores 3 4 [] [(1, ⟨5, []⟩), (2, ⟨7, []⟩)]).2 = 2 ∧
      (update_scores 3 4 [] [(1, ⟨5, []⟩), (2, ⟨7, []⟩)]).1.lookup
          ⟨1, 3, 4⟩ = some ⟨5, []⟩ ∧
      update_scores 3 4 (update_scores 3 4 [] [(1, ⟨5, []⟩), (2, ⟨7, []⟩)]).1
          [(1, ⟨5, []⟩), (2, ⟨7, []⟩)] =
        update_scores 3 4 [] [(1, ⟨5, []⟩), (2, ⟨7, []⟩)] := by
  have h := update_scores_idempotent_per_user 3 4 [] [(1, ⟨5, []⟩), (2, ⟨7, []⟩)]
  have hrest := h.2 (by decide)
  exact ⟨h.1, hrest.1 1 ⟨5, []⟩ (by simp), hrest.2⟩

theorem stageSetCompletedSelf {st : StageState}
    (h : st.is_completed = true) :
    ({ st with is_completed := true } : StageState) = st := by
  cases st
  simp_all

theorem stageSetActiveSelf {st : StageState} (h : st.is_active = true) :
    ({ st with is_active := true } : StageState) = st := by
  cases st
  simp_all

theorem moduleSetCompletedSelf {m : ModuleState}
    (h : m.is_completed = true) :
    ({ m with is_completed := true } : ModuleState) = m := by
  cases m
  simp_all

theorem checkStageAdvancement_no_op (w : World) (mid : Nat) (m : ModuleState)
    (hm : w.modules.lookup mid = some m)
    (hincomp : ∃ x ∈ w.modules,
      (x.2.stage = m.stage ∧ x.2.blocking_advancement = true) ∧
        x.2.is_completed = false) :
    checkStageAdvancement w mid = w := by
  obtain ⟨x, hxmem, ⟨hxstage, hxblock⟩, hxincomp⟩ := hincomp
  have hall : (w.modules.filter
      (fun mm => mm.2.stage == m.stage && mm.2.blocking_advancement)).all
        (fun mm => mm.2.is_completed) = false := by
    rw [List.all_eq_false]
    refine ⟨x, List.mem_filter.2 ⟨hxmem, by simp [hxstage, hxblock]⟩, by simp [hxincomp]⟩
  cases hst : w.stages.lookup m.stage with
  | none => simp [checkStageAdvancement, hm, hst]
  | some st => simp [checkStageAdvancement, hm, hst, hall]

theorem checkStageAdvancement_fires (w : World) (mid : Nat) (m : ModuleState)
    (st nsSt : StageState) (ns : Nat)
    (hm : w.modules.lookup mid = some m)
    (hall : ∀ x ∈ w.modules, x.2.stage = m.stage →
      x.2.blocking_advancement = true → x.2.is_completed = true)
    (hst : w.stages.lookup m.stage = some st)
    (hns : st.next_stage = some ns)
    (hnsne : ns ≠ m.stage)
    (hnsSt : w.stages.lookup ns = some nsSt) :
    checkStageAdvancement w mid =
      { stages := upsert (upsert w.stages m.stage { st with is_completed := true })
          ns { nsSt with is_active := true }
        modules := w.modules
        population_tasks := w.population_tasks ++ [ns] } := by
  have hallb : (w.modules.filter
      (fun mm => mm.2.stage == m.stage && mm.2.blocking_advancement)).all
        (fun mm => mm.2.is_completed) = true := by
    rw [List.all_eq_true]
    intro x hx
    obtain ⟨hxmem, hxpred⟩ := List.mem_filter.1 hx
    simp only [Bool.and_eq_true, beq_iff_eq] at hxpred
    simp [hall x hxmem hxpred.1 hxpred.2]
  have hst1 : (if st.is_completed then st else { st with is_completed := true }) =
      { st with is_completed := true } := by
    by_cases hc : st.is_completed = true
    · rw [if_pos hc, stageSetCompletedSelf hc]
    · rw [if_neg hc]
  have hlookupns : (upsert w.stages m.stage
      { st with is_completed := true }).lookup ns = some nsSt := by
    rw [upsert_lookup_other _ _ _ _ hnsne]
    exact hnsSt
  have hnsSt1 : (if nsSt.is_active then nsSt else { nsSt with is_active := true }) =
      { nsSt with is_active := true } := by
    by_cases hc : nsSt.is_active = true
    · rw [if_pos hc, stageSetActiveSelf hc]
    · rw [if_neg hc]
  rw [hns] at hst1 hlookupns
  simp only [checkStageAdvancement, hm, hst, hallb, Bool.not_true,
    Bool.false_eq_true, if_false, hst1, hns, hlookupns, hnsSt1]

/-- C4: `next_stage` is never activated (and no population task dispatched)
while any blocking module of the stage is incomplete — non-blocking modules
are ignored by the check; when the last blocking module transitions into
`is_completed=true`, the stage is marked completed (a no-op when already
true), `next_stage.is_active` is set, and exactly one population task for
`next_stage` is dispatched; re-saving an already-completed module changes
nothing, so the population trigger fires only on the transition. -/
theorem stage_advancement_gated_by_blocking (w : World) (mid : Nat)
    (old : ModuleState) :
    (w.modules.lookup mid = some old →
      (∃ mid2 m2, (mid2, m2) ∈ w.modules ∧ mid2 ≠ mid ∧
        m2.stage = old.stage ∧ m2.blocking_advancement = true ∧
        m2.is_completed = false) →
      (completeModule w mid).stages = w.stages ∧
        (completeModule w mid).population_tasks = w.population_tasks) ∧
    (∀ (st nsSt : StageState) (ns : Nat),
      (w.modules.map Prod.fst).Nodup →
      w.modules.lookup mid = some old →
      old.is_completed = false →
      w.stages.lookup old.stage = some st →
      st.next_stage = some ns →
      ns ≠ old.stage →
      w.stages.lookup ns = some nsSt →
      (∀ mid2 m2, (mid2, m2) ∈ w.modules → mid2 ≠ mid →
        m2.stage = old.stage → m2.blocking_advancement = true →
        m2.is_completed = true) →
      (completeModule w mid).stages.lookup old.stage =
          some { st with is_completed := true } ∧
        (completeModule w mid).stages.lookup ns =
          some { nsSt with is_active := true } ∧
        (completeModule w mid).population_tasks =
          w.population_tasks ++ [ns]) ∧
    (w.modules.lookup mid = some old → old.is_completed = true →
      completeModule w mid = w) := by
  refine ⟨?_, ?_, ?_⟩
  · rintro hold ⟨mid2, m2, hmem, hne, hstage, hblock, hincomp⟩
    by_cases hoc : old.is_completed = true
    · simp [completeModule, hold, hoc]
    · have hoc' : old.is_completed = false := by simpa using hoc
      set w1 : World :=
        { w with modules := upsert w.modules mid { old with is_completed := true } }
        with hw1
      have hl1 : w1.modules.lookup mid = some { old with is_completed := true } :=
        upsert_lookup_self _ _ _
      have hcheck : checkStageAdvancement w1 mid = w1 := by
        refine checkStageAdvancement_no_op w1 mid _ hl1
          ⟨(mid2, m2), mem_upsert_of_ne hmem hne, ⟨by simpa using hstage, hblock⟩,
            hincomp⟩
      have : completeModule w mid = w1 := by
        simp [completeModule, hold, hoc', hcheck]
      rw [this, hw1]
      exact ⟨rfl, rfl⟩
  · intro st nsSt ns hnodup hold holdinc hst hns hnsne hnsSt hothers
    set newOld : ModuleState := { old with is_completed := true } with hnewOld
    set w1 : World := { w with modules := upsert w.modules mid newOld } with hw1
    have hl1 : w1.modules.lookup mid = some newOld := upsert_lookup_self _ _ _
    have hall : ∀ x ∈ w1.modules, x.2.stage = newOld.stage →
        x.2.blocking_advancement = true → x.2.is_completed = true := by
      intro x hx hxstage hxblock
      rcases mem_upsert_nodup hnodup hx with heq | ⟨hxmem, hxne⟩
      · rw [heq]
      · by_cases hxmid : x.1 = mid
        · exact absurd hxmid hxne
        · have : x.2.stage = old.stage := by simpa using hxstage
          exact hothers x.1 x.2 hxmem hxmid this hxblock
    have hfire := checkStageAdvancement_fires w1 mid newOld st nsSt ns hl1 hall
      (by simpa using hst) hns (by simpa using hnsne) (by simpa using hnsSt)
    have hcm : completeModule w mid = checkStageAdvancement w1 mid := by
      simp [completeModule, hold, holdinc]
    rw [hcm, hfire]
    refine ⟨?_, ?_, rfl⟩
    · have h1 : (upsert (upsert w.stages newOld.stage { st with is_completed := true })
          ns { nsSt with is_active := true }).lookup old.stage =
          (upsert w.stages newOld.stage { st with is_completed := true }).lookup
            old.stage :=
        upsert_lookup_other _ _ _ _ (Ne.symm (by simpa using hnsne))
      have h2 : (upsert w.stages newOld.stage
          { st with is_completed := true }).lookup old.stage =
          some { st with is_completed := true } := by
        have : newOld.stage = old.stage := rfl
        rw [this]
        exact upsert_lookup_self _ _ _
      simpa using h1.trans h2
    · simpa using upsert_lookup_self
        (upsert w.stages newOld.stage { st with is_completed := true }) ns
        { nsSt with is_active := true }
  · intro hold hcomp
    have hsame : upsert w.modules mid { old with is_completed := true } = w.modules := by
      rw [moduleSetCompletedSelf hcomp]
      exact upsert_same _ _ _ hold
    simp [completeModule, hold, hcomp, hsame]

theorem assignPositionsGo_length :
    ∀ (rows : List LeaderboardRow) (rank : Nat) (prev : Option ℚ),
      (assignPositionsGo rows rank prev).length = rows.length
  | [], _, _ => rfl
  | e :: rest, rank, prev => by
    simp [assignPositionsGo, assignPositionsGo_length rest]

theorem insertByValueDesc_length (x : LeaderboardRow) :
    ∀ l : List LeaderboardRow, (insertByValueDesc x l).length = l.length + 1
  | [] => rfl
  | y :: ys => by
    by_cases hlt : y.value < x.value
    · simp [insertByValueDesc, hlt]
    · simp [insertByValueDesc, hlt, insertByValueDesc_length x ys]

theorem sortByValueDescAux_length :
    ∀ (rows acc : List LeaderboardRow),
      (rows.foldl (fun acc x => insertByValueDesc x acc) acc).length =
        acc.length + rows.length
  | [], acc => by simp
  | r :: rest, acc => by
    simp [List.foldl, sortByValueDescAux_length rest, insertByValueDesc_length]
    omega

theorem sortByValueDesc_length (rows : List LeaderboardRow) :
    (sortByValueDesc rows).length = rows.length := by
  simpa [sortByValueDesc] using sortByValueDescAux_length rows []

theorem parse_leaderboard_length (rows : List LeaderboardRow) :
    (parse_leaderboard rows).length = rows.length := by
  simp [parse_leaderboard, assignPositionsGo_length, sortByValueDesc_length]

theorem assignPositionsGo_position_step :
    ∀ (rows : List LeaderboardRow) (rank : Nat) (prev : Option ℚ) (i : Nat)
      (a b : LeaderboardEntry),
      (assignPositionsGo rows rank prev).get? i = some a →
      (assignPositionsGo rows rank prev).get? (i + 1) = some b →
      b.position = if b.value < a.value then a.position + 1 else a.position
  | [], _, _, i, a, b, ha, _ => by simp [assignPositionsGo] at ha
  | e :: rest, rank, prev, 0, a, b, ha, hb => by
    cases rest with
    | nil => simp [assignPositionsGo] at hb
    | cons f rest2 =>
      simp only [assignPositionsGo, List.get?_cons_zero, List.get?_cons_succ,
        Option.some.injEq] at ha hb
      subst ha
      subst hb
      simp
  | e :: rest, rank, prev, j + 1, a, b, ha, hb => by
    cases rest with
    | nil => simp [assignPositionsGo] at hb
    | cons f rest2 =>
      simp only [assignPositionsGo, List.get?_cons_succ] at ha hb
      exact assignPositionsGo_position_step (f :: rest2) _ (some e.value) j a b ha hb

/-- C7: `parse_leaderboard` assigns dense shared positions: parsed entries
with values 1.50, 1.50, 1.40 receive positions `[1, 1, 2]` (not `[1, 1, 3]`),
and in general an entry tied with its predecessor shares its position while a
strictly smaller value receives the previous position plus one. -/
theorem leaderboard_dense_shared_positions :
    (∀ (id1 id2 id3 : Int) (n1 n2 n3 : String),
      (parse_leaderboard [⟨id1, n1, 3 / 2⟩, ⟨id2, n2, 3 / 2⟩, ⟨id3, n3, 7 / 5⟩]).map
        LeaderboardEntry.position = [1, 1, 2]) ∧
    (∀ (rows : List LeaderboardRow) (i : Nat) (a b : LeaderboardEntry),
      (parse_leaderboard rows).get? i = some a →
      (parse_leaderboard rows).get? (i + 1) = some b →
      (b.value = a.value → b.position = a.position) ∧
        (b.value < a.value → b.position = a.position + 1)) := by
  constructor
  · intro id1 id2 id3 n1 n2 n3
    norm_num [parse_leaderboard, sortByValueDesc, insertByValueDesc,
      assignPositionsGo, List.foldl]
  · intro rows i a b ha hb
    have hstep := assignPositionsGo_position_step (sortByValueDesc rows) 1
      Option.none i a b ha hb
    constructor
    · intro heq
      rw [hstep, if_neg]
      rw [heq]
      exact lt_irrefl _
    · intro hlt
      rw [hstep, if_pos hlt]

theorem leaderboard_dense_shared_positions_witness :
    (parse_leaderboard demoLeaderboardRows).map LeaderboardEntry.position =
        [1, 1, 2] ∧
      LeaderboardEntry.position ⟨103, "charlie", 7 / 5, 2⟩ =
        LeaderboardEntry.position ⟨102, "bravo", 3 / 2, 1⟩ + 1 := by
  have hvals : parse_leaderboard demoLeaderboardRows =
      [⟨101, "alpha", 3 / 2, 1⟩, ⟨102, "bravo", 3 / 2, 1⟩,
        ⟨103, "charlie", 7 / 5, 2⟩] := by
    norm_num [demoLeaderboardRows, parse_leaderboard, sortByValueDesc,
      insertByValueDesc, assignPositionsGo, List.foldl]
  constructor
  · exact leaderboard_dense_shared_positions.1 101 102 103 "alpha" "bravo" "charlie"
  · exact (leaderboard_dense_shared_positions.2 demoLeaderboardRows 1
        ⟨102, "bravo", 3 / 2, 1⟩ ⟨103, "charlie", 7 / 5, 2⟩
        (by rw [hvals]; rfl) (by rw [hvals]; rfl)).2 (by norm_num)

theorem stage_advancement_gated_by_blocking_witness :
    (completeModule demoStageWorld 10).stages = demoStageWorld.stages ∧
      (completeModule demoStageWorld 10).population_tasks = [] ∧
      (completeModule (completeModule demoStageWorld 10) 11).stages.lookup 1 =
        some ⟨true, true, some 2⟩ ∧
      (completeModule (completeModule demoStageWorld 10) 11).stages.lookup 2 =
        some ⟨true, false, Option.none⟩ ∧
      (completeModule (completeModule demoStageWorld 10) 11).population_tasks =
        [2] ∧
      completeModule (completeModule (completeModule demoStageWorld 10) 11) 11 =
        completeModule (completeModule demoStageWorld 10) 11 := by
  have hw1 : completeModule demoStageWorld 10 =
      { stages := [(1, ⟨true, false, some 2⟩), (2, ⟨false, false, Option.none⟩)]
        modules := [(10, ⟨1, true, true⟩), (11, ⟨1, true, false⟩)]
        population_tasks := [] } := by decide
  have hA := (stage_advancement_gated_by_blocking demoStageWorld 10
      ⟨1, true, false⟩).1 (by decide)
    ⟨11, ⟨1, true, false⟩, by decide, by decide, rfl, rfl, rfl⟩
  have hB := (stage_advancement_gated_by_blocking (completeModule demoStageWorld 10)
      11 ⟨1, true, false⟩).2.1
    ⟨true, false, some 2⟩ ⟨false, false, Option.none⟩ 2
    (by rw [hw1]; decide) (by rw [hw1]; decide) rfl
    (by rw [hw1]; decide) rfl (by decide) (by rw [hw1]; decide)
    (by
      intro mid2 m2 hmem hne hstage hblock
      rw [hw1] at hmem
      simp only [List.mem_cons, List.not_mem_nil, or_false, Prod.mk.injEq] at hmem
      rcases hmem with ⟨h1, h2⟩ | ⟨h1, h2⟩
      · rw [h2]
      · exact absurd h1 hne)
  have hC := (stage_advancement_gated_by_blocking
      (completeModule (completeModule demoStageWorld 10) 11) 11
      ⟨1, true, true⟩).2.2
    (by rw [hw1]; decide) rfl
  refine ⟨hA.1, hA.2, hB.1, hB.2.1, ?_, hC⟩
  rw [hB.2.2, hw1]
  rfl

/-- C8: rule-set validation reports every violation, not only the first: a
config is valid exactly when its error list is empty; for a well-shaped
config the error list is the concatenation of every rule's errors in order
(so later rules are still checked after a bad one); and a config whose rules
respectively lack `id`, use an unrecognized operator, omit `fixed`'s required
`value`, and lack everything yields exactly the corresponding errors at their
structural paths, including `rules[2].scoring.value`. -/
theorem validation_enumerates_all_violations :
    (∀ config : Value,
      (validate_scoring_config config).1 = true ↔
        (validate_scoring_config config).2 = []) ∧
      (∀ rules : List Value,
        (validate_scoring_config (.dict [("rules", .list rules)])).2 =
          validateRulesList rules 0) ∧
      (∀ (r : Value) (rest : List Value) (i : Nat),
        validateRulesList (r :: rest) i =
          validateRule r s!"rules[{i}]" ++ validateRulesList rest (i + 1)) ∧
      validate_scoring_config badScoringConfig =
        (false,
          [ ⟨"rules[0].id", "Rule must have an id"⟩
          , ⟨"rules[1].condition.operator", "Unknown operator fancy_op"⟩
          , ⟨"rules[2].scoring.value", "Operator fixed requires field value"⟩
          , ⟨"rules[3].id", "Rule must have an id"⟩
          , ⟨"rules[3].condition", "Rule must have a condition"⟩
          , ⟨"rules[3].scoring", "Rule must have a scoring"⟩ ]) := by
  refine ⟨?_, fun rules => rfl, fun r rest i => rfl, ?_⟩
  · intro config
    cases config with
    | dict fields =>
      cases hr : fields.lookup "rules" with
      | none => simp [validate_scoring_config, hr]
      | some v =>
        cases v <;>
          simp [validate_scoring_config, hr, List.isEmpty_iff]
    | none => simp [validate_scoring_config]
    | int n => simp [validate_scoring_config]
    | str s => simp [validate_scoring_config]
    | bool b => simp [validate_scoring_config]
    | list xs => simp [validate_scoring_config]
  · simp only [badScoringConfig, validate_scoring_config, validateRulesList,
      validateRule, validateCondition, validateConditionList, validateScoring,
      requiredFieldErrors, ScoringConfigValidator.CONDITION_OPERATORS,
      ScoringConfigValidator.SCORING_OPERATORS,
      ScoringConfigValidator.CONDITION_REQUIRED_FIELDS,
      ScoringConfigValidator.SCORING_REQUIRED_FIELDS, List.lookup,
      List.filterMap, List.append, List.contains, List.elem, List.isEmpty,
      Option.isSome, Option.getD, String.reduceBEq, String.reduceAppend,
      reduceIte]
    decide

theorem set_equal_drops_none_and_ignores_order_witness :
    eval_condition
        (.set_equal ["prediction.team_a_id", "prediction.team_b_id"]
          ["result.team_a_id", "result.team_b_id"])
        (.dict [("team_a_id", .int 1), ("team_b_id", .int 2)])
        (.dict [("team_a_id", .int 2), ("team_b_id", .int 1)]) = true ∧
      eval_condition
        (.set_equal ["prediction.team_a_id", "prediction.team_b_id"]
          ["result.team_a_id", "result.team_b_id"])
        (.dict [("team_a_id", .int 1), ("team_b_id", Value.none)])
        (.dict [("team_a_id", .int 1), ("team_b_id", Value.none)]) = true ∧
      eval_condition
        (.set_equal ["prediction.team_a_id"]
          ["result.team_a_id", "result.team_b_id"])
        (.dict [("team_a_id", .int 1)])
        (.dict [("team_a_id", .int 1), ("team_b_id", .int 2)]) = false := by
  refine ⟨?_, ?_, ?_⟩
  · exact (set_equal_drops_none_and_ignores_order
        (.dict [("team_a_id", .int 1), ("team_b_id", .int 2)])
        (.dict [("team_a_id", .int 2), ("team_b_id", .int 1)])
        "prediction.team_a_id" "prediction.team_b_id"
        "result.team_a_id" "result.team_b_id"
        (.int 1) (.int 2)).1 (by decide) (by decide) (by decide) (by decide)
  · exact (set_equal_drops_none_and_ignores_order
        (.dict [("team_a_id", .int 1), ("team_b_id", Value.none)])
        (.dict [("team_a_id", .int 1), ("team_b_id", Value.none)])
        "prediction.team_a_id" "prediction.team_b_id"
        "result.team_a_id" "result.team_b_id"
        (.int 1) (.int 7)).2.1 (by decide) (by decide) (by decide) (by decide)
  · exact (set_equal_drops_none_and_ignores_order
        (.dict [("team_a_id", .int 1)])
        (.dict [("team_a_id", .int 1), ("team_b_id", .int 2)])
        "prediction.team_a_id" "prediction.team_b_id"
        "result.team_a_id" "result.team_b_id"
        (.int 1) (.int 2)).2.2 (by decide) (by decide) (by decide)
      (by decide) (by decide)

theorem resolve_path_absent_never_matches_witness :
    resolvePathList (Value.dict [("winner", .int 3)]) ["loser", "name"] =
        Value.none ∧
      resolvePathList (Value.int 5) ["name"] = Value.none ∧
      eval_condition (.eq "prediction.winner_id" "result.winner_id")
        (.dict []) (.dict [("winner_id", .int 3)]) = false := by
  refine ⟨?_, ?_, ?_⟩
  · exact resolve_path_absent_never_matches.1 [("winner", .int 3)] "loser"
      ["name"] (by decide)
  · exact resolve_path_absent_never_matches.2.1 (.int 5) "name" []
      (fun fields h => Value.noConfusion h)
  · exact resolve_path_absent_never_matches.2.2 "prediction.winner_id"
      "result.winner_id" (.dict []) (.dict [("winner_id", .int 3)]) (by decide)

theorem missing_condition_rule_always_matches_witness :
    ValidationError.mk "rules[0].condition" "Rule must have a condition" ∈
      validateRule (.dict [("id", Value.str "r0")]) "rules[0]" := by
  have h := (missing_condition_rule_always_matches (Value.dict []) (Value.dict [])
      [] Option.none Option.none (.fixed (some 5)) true
      [("id", Value.str "r0")] "rules[0]").2 (by decide)
  simpa using h

end CsFantasy
